import Mathlib

/-!
# Verification of the trove-random narrowing heuristics

Shallow embedding of the three GLAM-Workbench/trove-random notebooks:
`random_work_by_facets.ipynb`, `random_newspaper_article.ipynb` and
`random_work_by_id.ipynb`.  HTTP is modelled as an oracle mapping request
parameters to a response; `random.choice` / `random.randrange` draws are
modelled by an explicit stream of naturals `rs : Nat → Nat` consumed via a
cursor, with `random.choice l` selecting index `k % l.length`; fallible
Python operations (KeyError / IndexError / TypeError on missing JSON paths
and empty lists) are modelled with `Except PyErr`.
-/

set_option autoImplicit false

/-- Python exception kinds that the embedded code can raise, plus a marker
for fuel exhaustion of the embedded while-loops. -/
inductive PyErr : Type where
  | indexErr : PyErr
  | keyErr : PyErr
  | typeErr : PyErr
  | fuelErr : PyErr
deriving DecidableEq, Repr

deriving instance DecidableEq for Except

/-- `random.choice(l)`: raises IndexError on an empty list, otherwise picks
the element at the supplied random index modulo the length. -/
def pyChoice {α : Type} (k : Nat) (l : List α) : Except PyErr α :=
  match l with
  | [] => .error .indexErr
  | a :: _ => .ok (l.getD (k % l.length) a)

/-- The value `random.choice` returns on a non-empty list: index modulo
length, with an irrelevant default. -/
def choiceVal {α : Type} [Inhabited α] (k : Nat) (l : List α) : α :=
  l.getD (k % l.length) default

theorem getD_mem_of_lt {α : Type} (l : List α) (i : Nat) (d : α)
    (h : i < l.length) : l.getD i d ∈ l := by
  rw [List.getD_eq_getElem?_getD, List.getElem?_eq_getElem h, Option.getD_some]
  exact List.getElem_mem h

theorem pyChoice_ok_mem {α : Type} {k : Nat} {l : List α} {x : α}
    (h : pyChoice k l = .ok x) : x ∈ l := by
  match l with
  | [] => simp [pyChoice] at h
  | a :: rest =>
    simp only [pyChoice, Except.ok.injEq] at h
    subst h
    exact getD_mem_of_lt _ _ _ (Nat.mod_lt _ (Nat.succ_pos _))

theorem choiceVal_mem {α : Type} [Inhabited α] (k : Nat) {l : List α}
    (h : l ≠ []) : choiceVal k l ∈ l := by
  unfold choiceVal
  exact getD_mem_of_lt _ _ _ (Nat.mod_lt _ (List.length_pos.mpr h))

theorem pyChoice_cons_eq {α : Type} [Inhabited α] (k : Nat) (a : α) (l : List α) :
    pyChoice k (a :: l) = .ok (choiceVal k (a :: l)) := by
  have h : k % (a :: l).length < (a :: l).length :=
    Nat.mod_lt _ (Nat.succ_pos _)
  simp only [pyChoice, choiceVal]
  rw [List.getD_eq_getElem?_getD, List.getD_eq_getElem?_getD,
      List.getElem?_eq_getElem h, Option.getD_some, Option.getD_some]

/-- Every index below the length is selected by some random draw: the
modulo selection has full support over the list. -/
theorem choiceVal_surjective {α : Type} [Inhabited α] (l : List α) (i : Nat)
    (h : i < l.length) : choiceVal i l = l.getD i default := by
  unfold choiceVal
  rw [Nat.mod_eq_of_lt h]

/-- Python dict assignment `d[k] = v` on an insertion-ordered association
list: overwrite in place when the key exists, append otherwise. -/
def setP {β : Type} (l : List (String × β)) (k : String) (v : β) :
    List (String × β) :=
  if l.any (fun p => p.1 == k) then
    l.map (fun p => if p.1 == k then (k, v) else p)
  else l ++ [(k, v)]

namespace FacetsNB

/-! ## Data model of `random_work_by_facets.ipynb`

The JSON response shape used by the notebook:
`{ response: { zone: [ { name, records: { total, work: [...] },
facets: { facet: [ { name, term: [ { search, term?: [...] } ] } ] } } ] } }`.
A term node's optional nested `term` list is modelled as a (possibly
empty) `TermList` (absent ≙ empty, which is behaviourally identical for
the extractor).  Records are opaque and modelled by a numeric id. -/

mutual

/-- A facet term node: a `search` value and (possibly empty) nested
sub-terms. -/
inductive TermNode : Type where
  | mk (search : String) (sub : TermList)
deriving DecidableEq

/-- A list of facet term nodes (a dedicated type so that the tree walk is
structurally recursive). -/
inductive TermList : Type where
  | nil : TermList
  | cons (head : TermNode) (tail : TermList) : TermList
deriving DecidableEq

end

/-- The `search` value of a term node. -/
def TermNode.search : TermNode → String
  | .mk s _ => s

/-- The nested sub-terms of a term node. -/
def TermNode.sub : TermNode → TermList
  | .mk _ ts => ts

/-- A `TermList` as an ordinary list of nodes. -/
def TermList.toList : TermList → List TermNode
  | .nil => []
  | .cons t ts => t :: ts.toList

/-- One entry of the facet tree: `{ name, term: [...] }`. -/
structure FacetNode : Type where
  name : String
  term : TermList
deriving DecidableEq

/-- The `facets` section of a zone: `{ facet: [...] }`. -/
structure FacetsSection : Type where
  facet : List FacetNode
deriving DecidableEq

/-- The `records` section of a zone. -/
structure Records : Type where
  total : Nat
  work : List Nat
deriving DecidableEq, Repr

/-- One zone of a response; the `facets` key may be absent. -/
structure Zone : Type where
  name : String
  records : Records
  facets : Option FacetsSection
deriving DecidableEq

/-- A whole API response (`response.zone`). -/
structure TroveResponse : Type where
  zone : List Zone
deriving DecidableEq

/-- One entry of the derived facet catalog: `{'facet': name, 'terms': [...]}`. -/
structure FacetEntry : Type where
  facet : String
  terms : List String
deriving DecidableEq, Repr

/-- `get_facet_terms(terms)`: for every term node append its own `search`
value and then, recursively, the `search` values of its nested sub-terms. -/
def get_facet_terms : TermList → List String
  | .nil => []
  | .cons (.mk s sub) rest => s :: (get_facet_terms sub ++ get_facet_terms rest)

/-- `get_facets(data)`: walk `data['response']['zone'][0]['facets']['facet']`,
keeping every facet whose name does not have `'adv'` as its first three
characters and is not `'decade'`; a missing zone raises IndexError and a
missing `facets` key raises KeyError, exactly as the Python lookups would. -/
def get_facets (data : TroveResponse) : Except PyErr (List FacetEntry) :=
  match data.zone with
  | [] => .error .indexErr
  | z :: _ =>
    match z.facets with
    | none => .error .keyErr
    | some fs =>
      .ok ((fs.facet.filter
              (fun f => ¬(f.name.take 3 = "adv") ∧ f.name ≠ "decade")).map
            (fun f => ⟨f.name, get_facet_terms f.term⟩))

/-- `int(data['response']['zone'][0]['records']['total'])`. -/
def getTotal (data : TroveResponse) : Except PyErr Nat :=
  match data.zone with
  | [] => .error .indexErr
  | z :: _ => .ok z.records.total

/-- `get_zones(data)`: names of the zones whose total is strictly positive. -/
def get_zones : List Zone → List String
  | [] => []
  | z :: zs => if 0 < z.records.total then z.name :: get_zones zs else get_zones zs

/-! ### Specification-side facet flattening

`searchesToDepth d t` is written from the spec's words: a pre-order walk
that emits every node's own `search` value before recursively flattening
its nested sub-terms, cut off below depth `d`.  `DepthLe d t` asserts the
tree `t` has nesting depth at most `d`. -/

/-- Pre-order `search` values of a term tree, down to depth `d`. -/
def searchesToDepth : Nat → TermNode → List String
  | 0, _ => []
  | d + 1, .mk s sub => s :: sub.toList.flatMap (searchesToDepth d)

/-- The term tree `t` has nesting depth at most `d`. -/
inductive DepthLe : Nat → TermNode → Prop where
  | mk (s : String) (sub : TermList) (d : Nat)
      (h : ∀ t ∈ sub.toList, DepthLe d t) : DepthLe (d + 1) (.mk s sub)

/-- The `search` values `get_facet_terms` emits for a single node. -/
def nodeSearches (t : TermNode) : List String :=
  get_facet_terms (.cons t .nil)

theorem get_facet_terms_cons (t : TermNode) (rest : TermList) :
    get_facet_terms (.cons t rest) = nodeSearches t ++ get_facet_terms rest := by
  match t with
  | .mk s sub => simp [get_facet_terms, nodeSearches]

theorem get_facet_terms_list_spec (d : Nat) : ∀ (l : TermList),
    (∀ t ∈ l.toList, nodeSearches t = searchesToDepth d t) →
    get_facet_terms l = l.toList.flatMap (searchesToDepth d)
  | .nil, _ => by simp [get_facet_terms, TermList.toList]
  | .cons t rest, h => by
    have ht : nodeSearches t = searchesToDepth d t :=
      h t (by simp [TermList.toList])
    have hrest : get_facet_terms rest =
        rest.toList.flatMap (searchesToDepth d) :=
      get_facet_terms_list_spec d rest
        (fun t' ht' => h t' (by simp [TermList.toList, ht']))
    calc get_facet_terms (.cons t rest)
        = nodeSearches t ++ get_facet_terms rest := get_facet_terms_cons _ _
      _ = searchesToDepth d t ++ rest.toList.flatMap (searchesToDepth d) := by
            rw [ht, hrest]
      _ = (TermList.cons t rest).toList.flatMap (searchesToDepth d) := by
            simp [TermList.toList]

theorem get_facet_terms_eq_spec {d : Nat} {t : TermNode} (h : DepthLe d t) :
    nodeSearches t = searchesToDepth d t := by
  induction h with
  | mk s sub d hsub ih =>
    show nodeSearches (.mk s sub) = searchesToDepth (d + 1) (.mk s sub)
    simp only [nodeSearches, get_facet_terms, searchesToDepth, List.append_nil]
    congr 1
    exact get_facet_terms_list_spec d sub ih

/-! ## Request parameters and the narrowing session

`WParams` models the notebook's `params` dict.  The constant entries
(`encoding`, `key`) are omitted since nothing branches on them; the
`l-<facet>` entries are an insertion-ordered association list, and the
`facet` / `include` flags are `Option`s because `params.pop('facet', None)`
removes the key. -/

/-- The mutable `params` dict of `random_work_by_facets.ipynb`. -/
structure WParams : Type where
  zone : String
  n : String
  q : String
  facet : Option String
  includeLinks : Bool
  lFacets : List (String × String)
deriving DecidableEq, Repr

/-- State of one facet-narrowing session: current params, the applied
facet names, the latest total, the current facet catalog, the randomness
cursor and the trace of requests issued so far. -/
structure FState : Type where
  params : WParams
  applied : List String
  total : Nat
  facets : List FacetEntry
  cur : Nat
  reqs : List WParams
deriving DecidableEq, Repr

/-- Facet names of the current catalog. -/
def facetNames (fs : List FacetEntry) : List String := fs.map (·.facet)

/-- Loop guard of the narrowing loop:
`while total > 100 and len(facets) > 0`. -/
def facetGuard (st : FState) : Prop := 100 < st.total ∧ st.facets ≠ []

instance (st : FState) : Decidable (facetGuard st) := by
  unfold facetGuard; infer_instance

/-- One iteration of the `while` body of `get_random_work_from_zone`:
choose a facet from the catalog, record it as applied, choose one of its
term values, set the `l-<facet>` parameter, reissue the search and rebuild
total and catalog (re-excluding all applied facets). -/
def facetStep (oracle : WParams → TroveResponse) (rs : Nat → Nat)
    (st : FState) : Except PyErr FState :=
  match pyChoice (rs st.cur) st.facets with
  | .error e => .error e
  | .ok newFacet =>
    let applied := st.applied ++ [newFacet.facet]
    match pyChoice (rs (st.cur + 1)) newFacet.terms with
    | .error e => .error e
    | .ok v =>
      let params := { st.params with
                      lFacets := setP st.params.lFacets ("l-" ++ newFacet.facet) v }
      let data := oracle params
      match get_facets data with
      | .error e => .error e
      | .ok fs =>
        let facets := fs.filter (fun f => ¬ applied.contains f.facet)
        match getTotal data with
        | .error e => .error e
        | .ok total =>
          .ok { params := params, applied := applied, total := total,
                facets := facets, cur := st.cur + 2,
                reqs := st.reqs ++ [params] }

/-- The narrowing `while` loop, with fuel; running out of fuel while the
guard still holds is reported as `fuelErr` (the Python loop would simply
keep iterating). -/
def facetLoop (oracle : WParams → TroveResponse) (rs : Nat → Nat) :
    Nat → FState → Except PyErr FState
  | 0, st => if facetGuard st then .error .fuelErr else .ok st
  | fuel + 1, st =>
    if facetGuard st then
      match facetStep oracle rs st with
      | .error e => .error e
      | .ok st₂ => facetLoop oracle rs fuel st₂
    else .ok st

/-- Setup of `get_random_work_from_zone` before the loop: initial params
(window 0, all facets requested, links included), caller facets applied,
then the first search, total and filtered catalog.  `cur0` is the
starting position in the randomness stream. -/
def initState (oracle : WParams → TroveResponse) (cur0 : Nat)
    (zone q : String) (kwargs : List (String × String)) :
    Except PyErr FState :=
  let params : WParams :=
    { zone := zone, n := "0", q := q, facet := some "all",
      includeLinks := true,
      lFacets := kwargs.map (fun kv => ("l-" ++ kv.1, kv.2)) }
  let applied := kwargs.map (·.1)
  let data := oracle params
  match getTotal data with
  | .error e => .error e
  | .ok total =>
    match get_facets data with
    | .error e => .error e
    | .ok fs =>
      .ok { params := params, applied := applied, total := total,
            facets := fs.filter (fun f => ¬ applied.contains f.facet),
            cur := cur0, reqs := [params] }

/-- The request issued by the final page fetch: window size 100 and the
facet-listing request removed (`params.pop('facet', None)`). -/
def finalParams (st : FState) : WParams :=
  { st.params with n := "100", facet := none }

/-- Final step of `get_random_work_from_zone`: if the total is positive,
reissue the search with window 100 and the facet request removed, then
choose one work at random from the returned page; otherwise fall through
and return no result. -/
def finalStep (oracle : WParams → TroveResponse) (rs : Nat → Nat)
    (st : FState) : Except PyErr (Option Nat × List WParams) :=
  if 0 < st.total then
    let params := finalParams st
    let data := oracle params
    match data.zone with
    | [] => .error .indexErr
    | z :: _ =>
      match pyChoice (rs st.cur) z.records.work with
      | .error e => .error e
      | .ok w => .ok (some w, st.reqs ++ [params])
  else .ok (none, st.reqs)

/-- `get_random_work_from_zone(zone, query, **kwargs)`: returns the chosen
work (or `none`) together with the trace of requests issued. -/
def get_random_work_from_zone (oracle : WParams → TroveResponse)
    (rs : Nat → Nat) (fuel cur0 : Nat) (zone q : String)
    (kwargs : List (String × String)) :
    Except PyErr (Option Nat × List WParams) :=
  match initState oracle cur0 zone q kwargs with
  | .error e => .error e
  | .ok st0 =>
    match facetLoop oracle rs fuel st0 with
    | .error e => .error e
    | .ok st => finalStep oracle rs st

/-! ## The multi-zone entry point `get_random_work` -/

/-- `f'{n:02}'`: two-digit zero-padded rendering of a number. -/
def pad2 (n : Nat) : String :=
  if n < 10 then "0" ++ toString n else toString n

/-- `set_query(params, query, add_word, add_number)`: always draws a random
stopword and a random number in `[1, 100)`, then composes the `q`
parameter.  Returns the updated params and randomness cursor. -/
def set_query (stopwords : List String) (rs : Nat → Nat) (cur : Nat)
    (params : WParams) (query : Option String) (add_word add_number : Bool) :
    Except PyErr (WParams × Nat) :=
  match pyChoice (rs cur) stopwords with
  | .error e => .error e
  | .ok random_word =>
    let random_number := 1 + rs (cur + 1) % 99
    let q :=
      match query with
      | some qu =>
        if add_word then qu ++ " \"" ++ random_word ++ "\""
        else if add_number then qu ++ " \"" ++ pad2 random_number ++ "\""
        else qu
      | none => "\"" ++ random_word ++ "\""
    .ok ({ params with q := q }, cur + 2)

/-- The zone-probing `while` loop of `get_random_work`.  The Python loop is
`while len(zones) == 0 and tries <= 10`, with `tries` starting at 0 and
incremented once per iteration; `remaining` counts the iterations the
counter still allows (`11 - tries`), so the top-level call uses
`remaining = 11`.  Result: the non-empty zone list (or `[]` when the
budget is exhausted), the last params, the cursor and the probe trace. -/
def probeGo (oracle : WParams → TroveResponse) (stopwords : List String)
    (rs : Nat → Nat) (query : Option String) (add_word add_number : Bool) :
    Nat → WParams → Nat → List WParams →
    Except PyErr (List String × WParams × Nat × List WParams)
  | 0, params, cur, trace => .ok ([], params, cur, trace)
  | remaining + 1, params, cur, trace =>
    match set_query stopwords rs cur params query add_word add_number with
    | .error e => .error e
    | .ok (params, cur) =>
      let data := oracle params
      let zones := get_zones data.zone
      if zones = [] then
        probeGo oracle stopwords rs query add_word add_number
          remaining params cur (trace ++ [params])
      else .ok (zones, params, cur, trace ++ [params])

/-- The params of `get_random_work` before the probe loop: default zone
list when none is given, window 0, no facet listing. -/
def initGWParams (zone : Option String) : WParams :=
  { zone := zone.getD "book,article,picture,map,music,collection",
    n := "0", q := "", facet := none, includeLinks := false, lFacets := [] }

/-- `get_random_work(zone, query, add_word, add_number, **kwargs)`: probe
the zones (word-randomized query first, number randomization allowed in
the retry loop), then hand one randomly chosen non-empty zone to
`get_random_work_from_zone`.  Returns the work (or `none`), the probe
trace and the per-zone session trace. -/
def get_random_work (oracle : WParams → TroveResponse)
    (stopwords : List String) (rs : Nat → Nat) (fuel : Nat)
    (zone query : Option String) (add_word add_number : Bool)
    (kwargs : List (String × String)) :
    Except PyErr (Option Nat × List WParams × List WParams) :=
  match set_query stopwords rs 0 (initGWParams zone) query add_word false with
  | .error e => .error e
  | .ok (p1, c1) =>
    let p1 := { p1 with lFacets := kwargs.map (fun kv => ("l-" ++ kv.1, kv.2)) }
    match probeGo oracle stopwords rs query add_word add_number 11 p1 c1 [] with
    | .error e => .error e
    | .ok (zones, p2, c2, probeTrace) =>
      match zones with
      | [] => .ok (none, probeTrace, [])
      | z0 :: zr =>
        let zpick := choiceVal (rs c2) (z0 :: zr)
        match get_random_work_from_zone oracle rs fuel (c2 + 1) zpick p2.q kwargs with
        | .error e => .error e
        | .ok (w, zoneTrace) => .ok (w, probeTrace, zoneTrace)

end FacetsNB

namespace NewsNB

/-! ## Data model of `random_newspaper_article.ipynb`

The newspaper variant requests one facet at a time, so the `facets.facet`
path holds a single facet object (or `null`).  `facet = none` models the
JSON `null` whose `['term']` access raises the TypeError the code catches;
a missing `facets` key raises an uncaught KeyError.  The term list is
modelled directly by its `search` values, the only field accessed. -/

/-- `records` of a newspaper zone. -/
structure NRecords : Type where
  total : Nat
  article : List Nat
deriving DecidableEq, Repr

/-- The `facets` section returned by a single-facet probe request. -/
structure NFacetsSection : Type where
  facet : Option (List String)
deriving DecidableEq, Repr

/-- One newspaper zone. -/
structure NZone : Type where
  records : NRecords
  facets : Option NFacetsSection
deriving DecidableEq, Repr

/-- A newspaper API response. -/
structure NResponse : Type where
  zone : List NZone
deriving DecidableEq, Repr

/-- The `params` dict of `get_random_article`: zone fixed to `newspaper`;
`l-<facet>` values are `Option String` because the code can assign the
`None` returned by a failed facet probe. -/
structure NParams : Type where
  n : String
  q : String
  facet : Option String
  lFacets : List (String × Option String)
deriving DecidableEq, Repr

/-- `get_random_facet_value(params, facet)`: issue a single-facet probe on
a copy of the params, extract the term `search` values (returning `None`
when that extraction hits the TypeError), then choose one at random.  The
`random.choice` sits outside the `try`, so an empty value list still
raises.  Returns the value, the new cursor and the probe request. -/
def get_random_facet_value (oracle : NParams → NResponse) (rs : Nat → Nat)
    (cur : Nat) (params : NParams) (facet : String) :
    Except PyErr (Option String × Nat × List NParams) :=
  let theseParams := { params with facet := some facet }
  let data := oracle theseParams
  match data.zone with
  | [] => .error .indexErr
  | z :: _ =>
    match z.facets with
    | none => .error .keyErr
    | some fs =>
      match fs.facet with
      | none => .ok (none, cur, [theseParams])
      | some values =>
        match pyChoice (rs cur) values with
        | .error e => .error e
        | .ok v => .ok (some v, cur + 1, [theseParams])

/-- `get_total_results(params)`: issue the search and read the total. -/
def get_total_results (oracle : NParams → NResponse) (params : NParams) :
    Except PyErr Nat :=
  match (oracle params).zone with
  | [] => .error .indexErr
  | z :: _ => .ok z.records.total

/-- The zero-result retry loop of `get_random_article`, exactly as coded:
`while total == 0 and tries <= 10` re-randomizes the `q` parameter (when
no explicit query was supplied) and increments `tries`, but never issues
a request, so `total` never changes inside the loop.  `remaining` counts
the iterations the counter still allows (`11 - tries`); the caller passes
`remaining = 11`. -/
def retryGo (stopwords : List String) (rs : Nat → Nat)
    (query : Option String) (total : Nat) :
    Nat → NParams → Nat → Except PyErr (NParams × Nat)
  | 0, params, cur => .ok (params, cur)
  | remaining + 1, params, cur =>
    if total = 0 then
      match query with
      | none =>
        match pyChoice (rs cur) stopwords with
        | .error e => .error e
        | .ok w =>
          retryGo stopwords rs query total remaining
            { params with q := "\"" ++ w ++ "\"" } (cur + 1)
      | some _ => retryGo stopwords rs query total remaining params cur
    else .ok (params, cur)

/-- State of the newspaper narrowing loop: params, the remaining facet
priority list, the latest total, the randomness cursor and the request
trace. -/
structure NState : Type where
  params : NParams
  facets : List String
  total : Nat
  cur : Nat
  reqs : List NParams
deriving DecidableEq, Repr

/-- One iteration of the newspaper narrowing loop: pop the next facet from
the end of the priority list, set `l-<facet>` to a randomly chosen value
for it (possibly `None` if the probe found no usable term list) and
recompute the total. -/
def newsStep (oracle : NParams → NResponse) (rs : Nat → Nat)
    (st : NState) : Except PyErr NState :=
  match st.facets.getLast? with
  | none => .error .indexErr
  | some facet =>
    let rest := st.facets.dropLast
    match get_random_facet_value oracle rs st.cur st.params facet with
    | .error e => .error e
    | .ok (v, cur1, probeReqs) =>
      let params := { st.params with
                      lFacets := setP st.params.lFacets ("l-" ++ facet) v }
      match get_total_results oracle params with
      | .error e => .error e
      | .ok total =>
        .ok { params := params, facets := rest, total := total, cur := cur1,
              reqs := st.reqs ++ probeReqs ++ [params] }

/-- Loop guard: `while total > 100 and len(facets) > 0`. -/
def newsGuard (st : NState) : Prop := 100 < st.total ∧ st.facets ≠ []

instance (st : NState) : Decidable (newsGuard st) := by
  unfold newsGuard; infer_instance

/-- The newspaper narrowing loop with fuel; each iteration pops one facet,
so `fuel = st.facets.length` always suffices. -/
def newsLoop (oracle : NParams → NResponse) (rs : Nat → Nat) :
    Nat → NState → Except PyErr NState
  | 0, st => if newsGuard st then .error .fuelErr else .ok st
  | fuel + 1, st =>
    if newsGuard st then
      match newsStep oracle rs st with
      | .error e => .error e
      | .ok st₂ => newsLoop oracle rs fuel st₂
    else .ok st

/-- The fixed facet priority list of `get_random_article`. -/
def newsFacets : List String :=
  ["month", "year", "decade", "word", "illustrated", "category", "title"]

/-- `get_random_article(query, **kwargs)`: compose the query (random
stopword when none is supplied), apply caller facets, count, run the
(broken) zero-result retry loop, narrow facet by facet, and finally fetch
a window of 100 and pick one article at random.  Returns the article (or
`none`) and the trace of all requests issued. -/
def get_random_article (oracle : NParams → NResponse)
    (stopwords : List String) (rs : Nat → Nat) (fuel : Nat)
    (query : Option String) (kwargs : List (String × String)) :
    Except PyErr (Option Nat × List NParams) :=
  let applied := kwargs.map (·.1)
  let q0 : Except PyErr (String × Nat) :=
    match query with
    | some qu => .ok (qu, 0)
    | none =>
      match pyChoice (rs 0) stopwords with
      | .error e => .error e
      | .ok w => .ok ("\"" ++ w ++ "\"", 1)
  match q0 with
  | .error e => .error e
  | .ok (q, cur0) =>
    let params : NParams :=
      { n := "0", q := q, facet := none,
        lFacets := kwargs.map (fun kv => ("l-" ++ kv.1, some kv.2)) }
    let facets1 := newsFacets.filter (fun f => ¬ applied.contains f)
    match get_total_results oracle params with
    | .error e => .error e
    | .ok total =>
      match retryGo stopwords rs query total 11 params cur0 with
      | .error e => .error e
      | .ok (params1, cur1) =>
        let st0 : NState :=
          { params := params1, facets := facets1, total := total,
            cur := cur1, reqs := [params] }
        match newsLoop oracle rs fuel st0 with
        | .error e => .error e
        | .ok st =>
          if 0 < st.total then
            let fparams := { st.params with n := "100" }
            let data := oracle fparams
            match data.zone with
            | [] => .error .indexErr
            | z :: _ =>
              match pyChoice (rs st.cur) z.records.article with
              | .error e => .error e
              | .ok a => .ok (some a, st.reqs ++ [fparams])
          else .ok (none, st.reqs)

end NewsNB

namespace IdNB

/-! ## Embedding of `random_work_by_id.ipynb`

The numeric prefix string `random_id` is modelled as its digit list
(most significant first); the prefix never acquires a leading zero, since
every fresh base lies in `[10000, 100000)` and digits are only appended
at the end or dropped from the end, so the digit list determines the
string and `len(random_id)` is the list length.  The oracle maps the
current prefix (the query `id:<prefix>*`) to the reported total.
`restarts` instruments the `elif pos == 10` abandon-and-restart branch:
it is incremented exactly when that branch executes. -/

/-- Decimal digits of `n`, most significant first, with enough fuel for
any `n < 10^fuel`. -/
def natDigits10 : Nat → Nat → List Nat
  | 0, _ => []
  | fuel + 1, n => if n = 0 then [] else natDigits10 fuel (n / 10) ++ [n % 10]

/-- `str(random.randrange(10000, 100000))` as a digit list, from one
random draw `k`. -/
def baseDigits (k : Nat) : List Nat := natDigits10 6 (10000 + k % 90000)

theorem natDigits10_succ (fuel n : Nat) (h : n ≠ 0) :
    natDigits10 (fuel + 1) n = natDigits10 fuel (n / 10) ++ [n % 10] := by
  simp [natDigits10, h]

theorem baseDigits_length (k : Nat) : (baseDigits k).length = 5 := by
  unfold baseDigits
  set n := 10000 + k % 90000 with hn
  have h1 : 10000 ≤ n := by omega
  have h2 : n < 100000 := by
    have : k % 90000 < 90000 := Nat.mod_lt _ (by norm_num)
    omega
  rw [natDigits10_succ 5 n (by omega)]
  rw [natDigits10_succ 4 (n / 10) (by omega)]
  rw [natDigits10_succ 3 (n / 10 / 10) (by omega)]
  rw [natDigits10_succ 2 (n / 10 / 10 / 10) (by omega)]
  rw [natDigits10_succ 1 (n / 10 / 10 / 10 / 10) (by omega)]
  have hz : n / 10 / 10 / 10 / 10 / 10 = 0 := by omega
  rw [hz]
  simp [natDigits10]

/-- State of the ID-prefix loop: latest total, the digit-list prefix
(`None` before the first base is chosen), the cursor `pos` into the
shuffled digit sequence, the randomness cursor, the number of requests
issued and the number of abandon-and-restart transitions taken. -/
structure IdState : Type where
  total : Nat
  random_id : Option (List Nat)
  pos : Nat
  cur : Nat
  reqs : Nat
  restarts : Nat
deriving DecidableEq, Repr

/-- The state before the loop: `total = 0`, no prefix, cursor at 0. -/
def idInit : IdState :=
  { total := 0, random_id := none, pos := 0, cur := 0, reqs := 0, restarts := 0 }

/-- Loop guard: `while total == 0 or total > 100`. -/
def idGuard (st : IdState) : Prop := st.total = 0 ∨ 100 < st.total

instance (st : IdState) : Decidable (idGuard st) := by
  unfold idGuard; infer_instance

/-- The first `if/elif` pair of the loop body (`total == 0` handling):
choose a fresh base when no prefix exists, otherwise drop the last digit
when the prefix has 4 or more digits and pick a fresh base when it does
not.  Returns the updated prefix and randomness cursor. -/
def zeroAdjust (rs : Nat → Nat) (st : IdState) : Option (List Nat) × Nat :=
  if st.total = 0 then
    match st.random_id with
    | none => (some (baseDigits (rs st.cur)), st.cur + 1)
    | some d =>
      if 4 ≤ d.length then (some d.dropLast, st.cur)
      else (some (baseDigits (rs st.cur)), st.cur + 1)
  else (st.random_id, st.cur)

/-- The second `if/elif` pair of the loop body (`total > 100` handling):
append the next digit of the shuffled sequence while fewer than 10 have
been used; once all 10 are consumed (`pos == 10`), abandon the prefix,
pick a fresh random base and reset the cursor.  Returns the prefix, the
digit cursor, the randomness cursor and the restart counter. -/
def growAdjust (rs : Nat → Nat) (seq : List Nat) (st : IdState)
    (rid1 : Option (List Nat)) (cur1 : Nat) :
    Option (List Nat) × Nat × Nat × Nat :=
  if 100 < st.total ∧ st.pos < 10 then
    (rid1.map (fun d => d ++ [seq.getD st.pos 0]), st.pos + 1, cur1,
     st.restarts)
  else if st.pos = 10 then
    (some (baseDigits (rs cur1)), 0, cur1 + 1, st.restarts + 1)
  else (rid1, st.pos, cur1, st.restarts)

/-- One iteration of the ID-prefix loop body, followed by the wildcard
search for the updated prefix.  `seq` is the shuffled 0–9 digit sequence
of this session. -/
def idStep (oracle : Option (List Nat) → Nat) (rs : Nat → Nat)
    (seq : List Nat) (st : IdState) : IdState :=
  let za := zeroAdjust rs st
  let ga := growAdjust rs seq st za.1 za.2
  { total := oracle ga.1, random_id := ga.1, pos := ga.2.1,
    cur := ga.2.2.1, reqs := st.reqs + 1, restarts := ga.2.2.2 }

/-- `n` iterations of the ID-prefix loop (stopping early if the guard
fails). -/
def idIter (oracle : Option (List Nat) → Nat) (rs : Nat → Nat)
    (seq : List Nat) : Nat → IdState → IdState
  | 0, st => st
  | n + 1, st =>
    if idGuard st then idIter oracle rs seq n (idStep oracle rs seq st) else st

end IdNB

namespace FacetsNB

/-! ## Claims C7 and C8: the facet extractor -/

/-- C7: for every response carrying a facet tree, `get_facets` returns,
for each top-level facet whose name does not start with `"adv"` and is
not `"decade"`, exactly the `search` values of all of that facet's term
nodes — leaf and non-leaf — flattened pre-order into one list (here
characterised, at every nesting depth `d`, by the spec-side walk
`searchesToDepth`); facets named with the `"adv"` prefix or named
`"decade"` are excluded from the catalog. -/
theorem claim_C7 :
    (∀ (data : TroveResponse) (z : Zone) (zs : List Zone) (fs : FacetsSection),
      data.zone = z :: zs → z.facets = some fs →
      get_facets data =
        .ok ((fs.facet.filter
                (fun f => ¬(f.name.take 3 = "adv") ∧ f.name ≠ "decade")).map
              (fun f => ⟨f.name, get_facet_terms f.term⟩))
      ∧ ∀ L, get_facets data = .ok L →
          (∀ e ∈ L, ¬(e.facet.take 3 = "adv") ∧ e.facet ≠ "decade")
          ∧ ∀ f ∈ fs.facet, ¬(f.name.take 3 = "adv") → f.name ≠ "decade" →
              (⟨f.name, get_facet_terms f.term⟩ : FacetEntry) ∈ L)
    ∧ ∀ (l : TermList) (d : Nat), (∀ t ∈ l.toList, DepthLe d t) →
        get_facet_terms l = l.toList.flatMap (searchesToDepth d) := by
  constructor
  · intro data z zs fs hz hf
    obtain ⟨zl⟩ := data
    simp only at hz
    subst hz
    obtain ⟨zname, zrec, zfac⟩ := z
    simp only at hf
    subst hf
    have hgf : get_facets ⟨⟨zname, zrec, some fs⟩ :: zs⟩ =
        .ok ((fs.facet.filter
                (fun f => ¬(f.name.take 3 = "adv") ∧ f.name ≠ "decade")).map
              (fun f => ⟨f.name, get_facet_terms f.term⟩)) := rfl
    refine ⟨hgf, ?_⟩
    intro L hL
    rw [hgf] at hL
    injection hL with hL
    subst hL
    constructor
    · intro e he
      obtain ⟨f, hfmem, rfl⟩ := List.mem_map.mp he
      have := List.mem_filter.mp hfmem
      simpa using this.2
    · intro f hfmem h1 h2
      exact List.mem_map.mpr
        ⟨f, List.mem_filter.mpr ⟨hfmem, by simp [h1, h2]⟩, rfl⟩
  · intro l d h
    exact get_facet_terms_list_spec d l
      (fun t ht => get_facet_terms_eq_spec (h t ht))

/-- A depth-3 facet tree used to exercise the facet extractor. -/
def c7term : TermList :=
  .cons (.mk "f1" (.cons (.mk "f2" (.cons (.mk "f3" .nil) .nil)) .nil)) .nil

/-- A response with a kept facet, an `"adv"`-named facet and a `"decade"`
facet. -/
def c7data : TroveResponse :=
  ⟨[⟨"book", ⟨5, [1, 2]⟩,
     some ⟨[⟨"format", c7term⟩,
            ⟨"advcategory", .cons (.mk "x" .nil) .nil⟩,
            ⟨"decade", .cons (.mk "y" .nil) .nil⟩]⟩⟩]⟩

theorem claim_C7_witness :
    get_facets c7data = .ok [⟨"format", ["f1", "f2", "f3"]⟩]
    ∧ get_facet_terms c7term = c7term.toList.flatMap (searchesToDepth 3) := by
  have d1 : DepthLe 1 (.mk "f3" .nil) :=
    .mk _ _ _ (by intro t ht; simp [TermList.toList] at ht)
  have d2 : DepthLe 2 (.mk "f2" (.cons (.mk "f3" .nil) .nil)) :=
    .mk _ _ _ (by
      intro t ht
      simp [TermList.toList] at ht
      subst ht
      exact d1)
  have d3 : DepthLe 3 (.mk "f1" (.cons (.mk "f2" (.cons (.mk "f3" .nil) .nil)) .nil)) :=
    .mk _ _ _ (by
      intro t ht
      simp [TermList.toList] at ht
      subst ht
      exact d2)
  constructor
  · have h := ((claim_C7.1 c7data _ _ _ rfl rfl)).1
    exact h.trans (by decide)
  · refine claim_C7.2 c7term 3 ?_
    intro t ht
    simp [c7term, TermList.toList] at ht
    subst ht
    exact d3

/-- C8 counterexample: on a response whose first zone has no facet
section, `get_facets` propagates a KeyError instead of returning the
empty catalog the claim promises. -/
def c8data : TroveResponse := ⟨[⟨"book", ⟨0, []⟩, none⟩]⟩

theorem claim_C8_counterexample :
    get_facets c8data = .error .keyErr ∧ get_facets c8data ≠ .ok [] := by
  exact ⟨rfl, by decide⟩

/-- C8 (amended): on a response whose first zone lacks the facet section,
`get_facets` raises (propagates a KeyError from the missing JSON path)
rather than returning an empty catalog; when a facet section is present
it returns a catalog without raising — in particular the empty catalog
when the facet list is empty. -/
theorem claim_C8_amended : ∀ (data : TroveResponse) (z : Zone) (zs : List Zone),
    data.zone = z :: zs →
    (z.facets = none → get_facets data = .error .keyErr)
    ∧ ∀ fs, z.facets = some fs →
        ∃ L, get_facets data = .ok L ∧ (fs.facet = [] → L = []) := by
  intro data z zs hz
  obtain ⟨zl⟩ := data
  simp only at hz
  subst hz
  obtain ⟨zname, zrec, zfac⟩ := z
  constructor
  · intro hfac
    simp only at hfac
    subst hfac
    rfl
  · intro fs hfac
    simp only at hfac
    subst hfac
    refine ⟨_, rfl, ?_⟩
    intro hfs
    simp [hfs]

/-- A response whose facet section is present but empty. -/
def c8data2 : TroveResponse := ⟨[⟨"book", ⟨0, []⟩, some ⟨[]⟩⟩]⟩

theorem claim_C8_witness :
    get_facets c8data = .error .keyErr ∧ get_facets c8data2 = .ok [] := by
  constructor
  · exact (claim_C8_amended c8data _ _ rfl).1 rfl
  · obtain ⟨L, hL, hE⟩ := (claim_C8_amended c8data2 _ _ rfl).2 ⟨[]⟩ rfl
    rw [hL, hE rfl]

end FacetsNB

namespace IdNB

/-! ## Claims C4 and C5: the ID-prefix loop -/

theorem zeroAdjust_length (rs : Nat → Nat) (st : IdState)
    (h : ∀ l, st.random_id = some l → 3 ≤ l.length) :
    ∀ l, (zeroAdjust rs st).1 = some l → 3 ≤ l.length := by
  intro l hl
  unfold zeroAdjust at hl
  split at hl
  · split at hl
    next hrid =>
      simp at hl
      subst hl
      rw [baseDigits_length]; omega
    next d hrid =>
      have hd := h d hrid
      split at hl
      next h4 =>
        simp at hl
        subst hl
        rw [List.length_dropLast]; omega
      next h4 =>
        simp at hl
        subst hl
        rw [baseDigits_length]; omega
  · exact h l hl

theorem growAdjust_length (rs : Nat → Nat) (seq : List Nat) (st : IdState)
    (rid1 : Option (List Nat)) (cur1 : Nat)
    (h : ∀ l, rid1 = some l → 3 ≤ l.length) :
    ∀ l, (growAdjust rs seq st rid1 cur1).1 = some l → 3 ≤ l.length := by
  intro l hl
  unfold growAdjust at hl
  split at hl
  · rcases hrid : rid1 with _ | l0
    · rw [hrid] at hl
      simp at hl
    · rw [hrid] at hl
      simp at hl
      have h3 := h l0 hrid
      subst hl
      simp only [List.length_append, List.length_cons, List.length_nil]
      omega
  · split at hl
    next h2 =>
      simp at hl
      subst hl
      rw [baseDigits_length]; omega
    next h2 =>
      exact h l hl

/-- Every prefix reachable by one step keeps at least 3 digits: a drop
happens only from 4 or more digits, and every fresh base has 5. -/
theorem idStep_rid_length (oracle : Option (List Nat) → Nat)
    (rs : Nat → Nat) (seq : List Nat) (st : IdState)
    (h : ∀ l, st.random_id = some l → 3 ≤ l.length) :
    ∀ l, (idStep oracle rs seq st).random_id = some l → 3 ≤ l.length := by
  intro l hl
  simp only [idStep] at hl
  exact growAdjust_length rs seq st _ _ (zeroAdjust_length rs st h) l hl

/-- The 3-digit lower bound is preserved by any number of iterations. -/
theorem idIter_rid_length (oracle : Option (List Nat) → Nat)
    (rs : Nat → Nat) (seq : List Nat) :
    ∀ (n : Nat) (st : IdState),
      (∀ l, st.random_id = some l → 3 ≤ l.length) →
      ∀ l, (idIter oracle rs seq n st).random_id = some l → 3 ≤ l.length := by
  intro n
  induction n with
  | zero => intro st h; exact h
  | succ n ih =>
    intro st h
    simp only [idIter]
    by_cases hg : idGuard st
    · rw [if_pos hg]
      exact ih _ (idStep_rid_length oracle rs seq st h)
    · rw [if_neg hg]
      exact h

/-- C4 counterexample: with an oracle that always reports zero results and
a first base of `54321`, three iterations shrink the prefix to the three
digits `543` — below the claimed 4-digit floor — although no
abandon-and-restart was taken (`restarts = 0`) and only the one initial
base was ever drawn (`cur = 1`). -/
theorem claim_C4_counterexample :
    (idIter (fun _ => 0) (fun _ => 44321) [] 3 idInit).random_id =
      some [5, 4, 3]
    ∧ ([5, 4, 3] : List Nat).length < 4
    ∧ (idIter (fun _ => 0) (fun _ => 44321) [] 3 idInit).restarts = 0
    ∧ (idIter (fun _ => 0) (fun _ => 44321) [] 3 idInit).cur = 1 := by
  exact ⟨rfl, by decide, rfl, rfl⟩

/-- C4 (amended): in every reachable state of the ID-prefix loop, the
prefix never drops below 3 digits: on a zero total the last digit is
dropped exactly when the current prefix has 4 or more digits (so the
result keeps at least 3), and otherwise the prefix is replaced by a fresh
5-digit base drawn from `[10000, 100000)`. -/
theorem claim_C4_amended (oracle : Option (List Nat) → Nat)
    (rs : Nat → Nat) (seq : List Nat) (n : Nat) (l : List Nat)
    (h : (idIter oracle rs seq n idInit).random_id = some l) :
    3 ≤ l.length := by
  refine idIter_rid_length oracle rs seq n idInit ?_ l h
  intro l hl
  simp [idInit] at hl

theorem claim_C4_witness :
    (idIter (fun _ => 0) (fun _ => 44321) [] 2 idInit).random_id =
      some [5, 4, 3, 2]
    ∧ 3 ≤ ([5, 4, 3, 2] : List Nat).length :=
  ⟨rfl, claim_C4_amended (fun _ => 0) (fun _ => 44321) [] 2 [5, 4, 3, 2]
    rfl⟩

/-- Oracle for the C5 counterexample: totals over 100 until the prefix has
grown to 15 digits, then zero. -/
def c5oracle : Option (List Nat) → Nat
  | some l => if 15 ≤ l.length then 0 else 101
  | none => 0

/-- The state the C5 counterexample reaches after 11 iterations. -/
def c5state : IdState :=
  idIter c5oracle (fun _ => 44321) [0, 1, 2, 3, 4, 5, 6, 7, 8, 9] 11 idInit

/-- C5 counterexample: a reachable state with `total = 0` (not exceeding
100) and all ten digits consumed still takes the abandon-and-restart
transition, contradicting the claim that it happens only when the total
exceeds 100. -/
theorem claim_C5_counterexample :
    c5state.total = 0
    ∧ c5state.pos = 10
    ∧ ¬ 100 < c5state.total
    ∧ (idStep c5oracle (fun _ => 44321) [0, 1, 2, 3, 4, 5, 6, 7, 8, 9]
        c5state).restarts = c5state.restarts + 1 := by
  exact ⟨rfl, rfl, by decide, rfl⟩

/-- C5 (amended): the abandon-and-restart transition — fresh random
5-digit base, digit cursor reset to 0 — is taken exactly when all 10
digits of the shuffled sequence have been consumed (`pos = 10`),
regardless of whether the current total is 0 or exceeds 100. -/
theorem claim_C5_amended (oracle : Option (List Nat) → Nat)
    (rs : Nat → Nat) (seq : List Nat) (st : IdState) :
    ((idStep oracle rs seq st).restarts = st.restarts + 1 ↔ st.pos = 10)
    ∧ (st.pos = 10 →
        (idStep oracle rs seq st).pos = 0
        ∧ ∃ k, (idStep oracle rs seq st).random_id = some (baseDigits k)
            ∧ (baseDigits k).length = 5) := by
  constructor
  · simp only [idStep, growAdjust]
    by_cases h1 : 100 < st.total ∧ st.pos < 10
    · rw [if_pos h1]
      simp only
      constructor
      · intro h; omega
      · intro h; omega
    · rw [if_neg h1]
      by_cases h2 : st.pos = 10
      · rw [if_pos h2]
        simp [h2]
      · rw [if_neg h2]
        simp only
        constructor
        · intro h; omega
        · intro h; exact absurd h h2
  · intro h2
    have h1 : ¬(100 < st.total ∧ st.pos < 10) := by omega
    constructor
    · simp [idStep, growAdjust, if_neg h1, if_pos h2]
    · refine ⟨rs (zeroAdjust rs st).2, ?_, baseDigits_length _⟩
      simp [idStep, growAdjust, if_neg h1, if_pos h2]

/-- A state at the digit-cursor boundary used to exercise the restart
transition. -/
def c5wState : IdState :=
  { total := 0, random_id := some [1, 2, 3, 4, 5], pos := 10,
    cur := 0, reqs := 0, restarts := 0 }

theorem claim_C5_witness :
    (idStep (fun _ => 0) (fun _ => 7) [] c5wState).pos = 0
    ∧ (idStep (fun _ => 0) (fun _ => 7) [] c5wState).restarts =
        c5wState.restarts + 1 := by
  refine ⟨((claim_C5_amended (fun _ => 0) (fun _ => 7) [] c5wState).2 rfl).1, ?_⟩
  exact (claim_C5_amended (fun _ => 0) (fun _ => 7) [] c5wState).1.mpr rfl

end IdNB

namespace NewsNB

/-! ## Claims C2 and C10: the newspaper variant -/

/-- Response reporting zero results (for the initial stopword query). -/
def c2resp0 : NResponse := ⟨[⟨⟨0, []⟩, none⟩]⟩

/-- Response reporting 50 results (for the re-randomized query). -/
def c2resp50 : NResponse := ⟨[⟨⟨50, [7]⟩, none⟩]⟩

/-- Oracle for the C2 failing input: the first stopword query `"the"`
finds nothing, while the re-randomized query `"of"` would find 50
articles. -/
def c2oracle : NParams → NResponse :=
  fun p => if p.q = "\"of\"" then c2resp50 else c2resp0

/-- C2 (code defect, evaluated at the failing input): when the first count
query reports zero results and no explicit query was supplied, the retry
loop rewrites the `q` parameter eleven times (ending at `"of"`) but never
re-issues the search, so the whole call returns no result after exactly
one request — even though the very query string the loop left behind
would have found 50 articles. -/
theorem claim_C2_bug :
    get_random_article c2oracle ["the", "of"] (fun n => n) 7 none [] =
      .ok (none, [{ n := "0", q := "\"the\"", facet := none, lFacets := [] }])
    ∧ retryGo ["the", "of"] (fun n => n) none 0 11
        { n := "0", q := "\"the\"", facet := none, lFacets := [] } 1 =
      .ok ({ n := "0", q := "\"of\"", facet := none, lFacets := [] }, 12)
    ∧ get_total_results c2oracle
        { n := "0", q := "\"of\"", facet := none, lFacets := [] } = .ok 50 := by
  exact ⟨rfl, rfl, rfl⟩

theorem lookup_setP {β : Type} : ∀ (l : List (String × β)) (k : String) (v : β),
    (setP l k v).lookup k = some v := by
  intro l k v
  unfold setP
  by_cases h : l.any (fun p => p.1 == k)
  · rw [if_pos h]
    induction l with
    | nil => simp at h
    | cons p rest ih =>
      simp only [List.map_cons]
      by_cases hp : (p.1 == k) = true
      · rw [if_pos hp]
        simp [List.lookup]
      · rw [if_neg hp]
        have hk : (k == p.1) = false := by
          have : p.1 ≠ k := by
            intro hcontra
            exact hp (by simp [hcontra])
          simp [Ne.symm this]
        simp only [List.lookup, hk]
        apply ih
        simp only [List.any_cons, Bool.or_eq_true] at h
        rcases h with h | h
        · exact absurd h hp
        · exact h
  · rw [if_neg h]
    induction l with
    | nil => simp [List.lookup]
    | cons p rest ih =>
      simp only [List.any_cons, Bool.or_eq_true, not_or] at h
      have hp : (p.1 == k) = false := by
        rcases hb : (p.1 == k) with _ | _
        · rfl
        · exact absurd hb h.1
      have hk : (k == p.1) = false := by
        have : p.1 ≠ k := by simpa using hp
        simp [Ne.symm this]
      simp only [List.cons_append, List.lookup, hk]
      apply ih
      simp only [List.any_eq_true, not_exists]
      intro x hx
      have := h.2
      simp only [List.any_eq_true, not_exists] at this
      exact this x hx

/-- C10: when the dedicated single-facet probe hits a response without a
usable term list (the `TypeError` path: `facets.facet` is null), it
returns `None` without raising, issuing exactly its one probe request and
consuming no randomness; `get_random_article` then stores `None` as the
value of the `l-<facet>` request parameter (the key is present and maps
to `None`), pops that facet from the priority list, and continues with
the next total count — no exception, no retry of the facet, no parameter
removal. -/
theorem claim_C10 (oracle : NParams → NResponse) (rs : Nat → Nat)
    (st : NState) (fs : List String) (f : String) (z : NZone)
    (zs : List NZone)
    (hf : st.facets = fs ++ [f])
    (hz : (oracle { st.params with facet := some f }).zone = z :: zs)
    (hnul : z.facets = some ⟨none⟩) :
    get_random_facet_value oracle rs st.cur st.params f =
      .ok (none, st.cur, [{ st.params with facet := some f }])
    ∧ ∀ total, get_total_results oracle
          { st.params with
            lFacets := setP st.params.lFacets ("l-" ++ f) none } = .ok total →
        newsStep oracle rs st =
          .ok { params := { st.params with
                            lFacets := setP st.params.lFacets ("l-" ++ f) none },
                facets := fs, total := total, cur := st.cur,
                reqs := st.reqs ++ [{ st.params with facet := some f }]
                        ++ [{ st.params with
                              lFacets := setP st.params.lFacets ("l-" ++ f) none }] }
        ∧ ({ st.params with
             lFacets := setP st.params.lFacets ("l-" ++ f) none } :
              NParams).lFacets.lookup ("l-" ++ f) = some none := by
  have hprobe : get_random_facet_value oracle rs st.cur st.params f =
      .ok (none, st.cur, [{ st.params with facet := some f }]) := by
    unfold get_random_facet_value
    simp only [hz, hnul]
  refine ⟨hprobe, ?_⟩
  intro total htot
  constructor
  · unfold newsStep
    simp only [hf, List.getLast?_concat, List.dropLast_concat, hprobe, htot]
  · exact lookup_setP _ _ _

/-- Oracle for the C10 witness: single-facet probes see a null facet
object; count queries report 80 results. -/
def c10oracle : NParams → NResponse :=
  fun p =>
    if p.facet.isSome then ⟨[⟨⟨500, []⟩, some ⟨none⟩⟩]⟩
    else ⟨[⟨⟨80, [3]⟩, none⟩]⟩

/-- A newspaper loop state about to pop the `year` facet. -/
def c10state : NState :=
  { params := { n := "0", q := "\"the\"", facet := none, lFacets := [] },
    facets := ["month", "year"], total := 500, cur := 0, reqs := [] }

theorem claim_C10_witness :
    newsStep c10oracle (fun _ => 0) c10state =
      .ok { params := { n := "0", q := "\"the\"", facet := none,
                        lFacets := [("l-year", none)] },
            facets := ["month"], total := 80, cur := 0,
            reqs := [{ n := "0", q := "\"the\"", facet := some "year",
                       lFacets := [] },
                     { n := "0", q := "\"the\"", facet := none,
                       lFacets := [("l-year", none)] }] }
    ∧ ([("l-year", (none : Option String))]).lookup "l-year" = some none := by
  have h := (claim_C10 c10oracle (fun _ => 0) c10state ["month"] "year" _ _
    rfl rfl rfl).2 80 rfl
  exact ⟨h.1, h.2⟩

end NewsNB

namespace FacetsNB

/-! ## Claims C6, C9 and C1: the facet narrowing loop -/

/-- Full characterisation of a successful narrowing iteration: some facet
`nf` of the current catalog was chosen, one of its term values `v` was
chosen, the `l-<facet>` parameter was set, the search reissued, and total
and catalog rebuilt with all applied facets re-excluded. -/
theorem facetStep_ok_spec (oracle : WParams → TroveResponse) (rs : Nat → Nat)
    (st st' : FState) (hstep : facetStep oracle rs st = .ok st') :
    ∃ nf, nf ∈ st.facets ∧ ∃ v L total,
      get_facets (oracle { st.params with
        lFacets := setP st.params.lFacets ("l-" ++ nf.facet) v }) = .ok L
      ∧ st' = { params := { st.params with
                  lFacets := setP st.params.lFacets ("l-" ++ nf.facet) v },
                applied := st.applied ++ [nf.facet],
                total := total,
                facets := L.filter
                  (fun f => ¬ (st.applied ++ [nf.facet]).contains f.facet),
                cur := st.cur + 2,
                reqs := st.reqs ++ [{ st.params with
                  lFacets := setP st.params.lFacets ("l-" ++ nf.facet) v }] } := by
  unfold facetStep at hstep
  split at hstep
  · cases hstep
  next nf hnf =>
    split at hstep
    · cases hstep
    next v hv =>
      dsimp only at hstep
      split at hstep
      · cases hstep
      next L hL =>
        split at hstep
        · cases hstep
        next total htot =>
          injection hstep with hstep
          exact ⟨nf, pyChoice_ok_mem hnf, v, L, total, hL, hstep.symm⟩

/-- The C6 session invariant: the current catalog never mentions an
already-applied facet, and no facet name occurs twice in the applied
list. -/
def facetInv (st : FState) : Prop :=
  (∀ e ∈ st.facets, e.facet ∉ st.applied) ∧ st.applied.Nodup

/-- C6: throughout one facet-narrowing session the applied-facet set only
grows (each iteration appends exactly one facet name, and the whole loop
leaves the initial applied list a prefix of the final one), no facet name
is selected twice (the chosen facet is never already applied, and the
applied list stays duplicate-free), and at the start of every iteration
the catalog is disjoint from the applied set (the invariant holds
initially and is preserved by every iteration). -/
theorem claim_C6 (oracle : WParams → TroveResponse) (rs : Nat → Nat) :
    (∀ st st', facetInv st → facetStep oracle rs st = .ok st' →
      facetInv st'
      ∧ ∃ nf ∈ st.facets, nf.facet ∉ st.applied
          ∧ st'.applied = st.applied ++ [nf.facet])
    ∧ (∀ fuel st st', facetInv st → facetLoop oracle rs fuel st = .ok st' →
        facetInv st' ∧ st.applied <+: st'.applied)
    ∧ (∀ cur0 zone q kwargs st0,
        (kwargs.map (fun kv => kv.1)).Nodup →
        initState oracle cur0 zone q kwargs = .ok st0 → facetInv st0) := by
  have hstep : ∀ st st', facetInv st → facetStep oracle rs st = .ok st' →
      facetInv st'
      ∧ ∃ nf ∈ st.facets, nf.facet ∉ st.applied
          ∧ st'.applied = st.applied ++ [nf.facet] := by
    intro st st' hinv hs
    obtain ⟨nf, hmem, v, L, total, hL, rfl⟩ := facetStep_ok_spec oracle rs st st' hs
    have hnot : nf.facet ∉ st.applied := hinv.1 nf hmem
    refine ⟨⟨?_, ?_⟩, nf, hmem, hnot, rfl⟩
    · intro e he
      have := (List.mem_filter.mp he).2
      simpa [List.elem_iff] using this
    · simp [List.nodup_append, hinv.2, hnot]
  refine ⟨hstep, ?_, ?_⟩
  · intro fuel
    induction fuel with
    | zero =>
      intro st st' hinv hl
      unfold facetLoop at hl
      split at hl
      · cases hl
      · injection hl with hl
        subst hl
        exact ⟨hinv, List.prefix_refl _⟩
    | succ fuel ih =>
      intro st st' hinv hl
      unfold facetLoop at hl
      split at hl
      · split at hl
        · cases hl
        next st₂ hs₂ =>
          obtain ⟨hinv₂, nf, _, _, happ⟩ := hstep st st₂ hinv hs₂
          obtain ⟨hinv', hpre⟩ := ih st₂ st' hinv₂ hl
          refine ⟨hinv', ?_⟩
          have : st.applied <+: st₂.applied := by
            rw [happ]; exact List.prefix_append _ _
          exact this.trans hpre
      · injection hl with hl
        subst hl
        exact ⟨hinv, List.prefix_refl _⟩
  · intro cur0 zone q kwargs st0 hnd hinit
    unfold initState at hinit
    dsimp only at hinit
    split at hinit
    · cases hinit
    next total htot =>
      split at hinit
      · cases hinit
      next L hL =>
        injection hinit with hinit
        subst hinit
        constructor
        · intro e he
          have := (List.mem_filter.mp he).2
          simpa [List.elem_iff] using this
        · simpa using hnd

/-- Oracle for the facet-loop witnesses: a catalog with the single facet
`format`, narrowing to 45 results once `l-format` is applied. -/
def wOracle : WParams → TroveResponse := fun p =>
  if p.lFacets.any (fun kv => kv.1 == "l-format") then
    ⟨[⟨"book", ⟨45, [10, 20, 30]⟩, some ⟨[]⟩⟩]⟩
  else
    ⟨[⟨"book", ⟨150, []⟩, some ⟨[⟨"format", .cons (.mk "Book" .nil) .nil⟩]⟩⟩]⟩

/-- The state of the witness session after its initial search. -/
def wState0 : FState :=
  { params := { zone := "book", n := "0", q := "cat", facet := some "all",
                includeLinks := true, lFacets := [] },
    applied := [], total := 150, facets := [⟨"format", ["Book"]⟩],
    cur := 0, reqs := [{ zone := "book", n := "0", q := "cat",
                         facet := some "all", includeLinks := true,
                         lFacets := [] }] }

theorem claim_C6_witness :
    facetInv wState0
    ∧ ∀ st', facetLoop wOracle (fun _ => 0) 1 wState0 = .ok st' →
        facetInv st' ∧ wState0.applied <+: st'.applied := by
  have hinv : facetInv wState0 := by
    constructor
    · intro e he
      simp [wState0] at he
      subst he
      simp [wState0]
    · simp [wState0]
  exact ⟨hinv, fun st' h =>
    (claim_C6 wOracle (fun _ => 0)).2.1 1 wState0 st' hinv h⟩

end FacetsNB

namespace FacetsNB

/-- The number of universe facet names not yet applied — the measure that
strictly decreases at every narrowing iteration. -/
def notApplied (F applied : List String) : Nat :=
  (F.filter (fun x => !(applied.contains x))).length

theorem notApplied_append_lt (F applied : List String) (a : String)
    (haF : a ∈ F) (hna : a ∉ applied) :
    notApplied F (applied ++ [a]) < notApplied F applied := by
  unfold notApplied
  have hpt : ∀ x ∈ F, (!((applied ++ [a]).contains x)) =
      ((!(decide (x = a))) && !(applied.contains x)) := by
    intro x _
    simp [List.contains_eq_any_beq, List.any_append, Bool.not_or, Bool.and_comm]
  rw [List.filter_congr hpt, ← List.filter_filter]
  apply List.length_filter_lt_length_iff_exists.mpr
  refine ⟨a, ?_, by simp⟩
  exact List.mem_filter.mpr ⟨haF, by simp [List.elem_iff, hna]⟩

theorem pyChoice_error {α : Type} {k : Nat} {l : List α} {e : PyErr}
    (h : pyChoice k l = .error e) : e = .indexErr := by
  cases l with
  | nil =>
    simp only [pyChoice] at h
    injection h with h
    exact h.symm
  | cons a rest => simp [pyChoice] at h

theorem get_facets_error {data : TroveResponse} {e : PyErr}
    (h : get_facets data = .error e) : e ≠ .fuelErr := by
  unfold get_facets at h
  split at h
  · injection h with h; subst h; decide
  · split at h
    · injection h with h; subst h; decide
    · cases h

theorem getTotal_error {data : TroveResponse} {e : PyErr}
    (h : getTotal data = .error e) : e ≠ .fuelErr := by
  unfold getTotal at h
  split at h
  · injection h with h; subst h; decide
  · cases h

/-- The narrowing iteration can raise IndexError or KeyError, but its
errors are never the fuel marker. -/
theorem facetStep_error_ne_fuel (oracle : WParams → TroveResponse)
    (rs : Nat → Nat) (st : FState) (e : PyErr)
    (h : facetStep oracle rs st = .error e) : e ≠ .fuelErr := by
  unfold facetStep at h
  split at h
  next e' he' =>
    injection h with h
    subst h
    rw [pyChoice_error he']
    decide
  next nf hnf =>
    split at h
    next e' he' =>
      injection h with h
      subst h
      rw [pyChoice_error he']
      decide
    next v hv =>
      dsimp only at h
      split at h
      next e' he' =>
        injection h with h
        subst h
        exact get_facets_error he'
      next L hL =>
        split at h
        next e' he' =>
          injection h with h
          subst h
          exact getTotal_error he'
        next total htot => cases h

/-- C9: if every catalog the oracle can return draws its facet names from
a fixed universe `F` (in particular, from the names of the initial facet
catalog), then whenever at loop entry at most `fuel` universe names are
still unapplied the loop never exhausts that fuel — it terminates after
finitely many requests — and it issues at most `notApplied F applied ≤
|F|` further requests, i.e. no more iterations than the facet catalog has
entries, even though the catalog is rebuilt from each response. -/
theorem claim_C9 (oracle : WParams → TroveResponse) (rs : Nat → Nat)
    (F : List String)
    (hF : ∀ p L, get_facets (oracle p) = .ok L → ∀ e ∈ L, e.facet ∈ F) :
    ∀ fuel st,
      (∀ e ∈ st.facets, e.facet ∈ F) →
      (∀ e ∈ st.facets, e.facet ∉ st.applied) →
      notApplied F st.applied ≤ fuel →
      facetLoop oracle rs fuel st ≠ .error .fuelErr
      ∧ (∀ st', facetLoop oracle rs fuel st = .ok st' →
          st'.reqs.length ≤ st.reqs.length + notApplied F st.applied)
      ∧ notApplied F st.applied ≤ F.length := by
  intro fuel
  induction fuel with
  | zero =>
    intro st hsub hdis hm
    have hfac : st.facets = [] := by
      by_contra hne
      obtain ⟨e, he⟩ := List.exists_mem_of_ne_nil st.facets hne
      have hmm : e.facet ∈ F.filter (fun x => !(st.applied.contains x)) :=
        List.mem_filter.mpr ⟨hsub e he, by simp [List.elem_iff, hdis e he]⟩
      have hlen : 0 < notApplied F st.applied := by
        unfold notApplied
        exact List.length_pos.mpr (List.ne_nil_of_mem hmm)
      omega
    have hng : ¬ facetGuard st := by simp [facetGuard, hfac]
    have hok : facetLoop oracle rs 0 st = .ok st := by
      unfold facetLoop
      rw [if_neg hng]
    refine ⟨(by rw [hok]; intro hc; cases hc), ?_, ?_⟩
    · intro st' h'
      rw [hok] at h'
      injection h' with h'
      subst h'
      omega
    · unfold notApplied
      exact List.length_filter_le _ _
  | succ fuel ih =>
    intro st hsub hdis hm
    have hbound : notApplied F st.applied ≤ F.length := by
      unfold notApplied
      exact List.length_filter_le _ _
    by_cases hg : facetGuard st
    · rcases hs : facetStep oracle rs st with e | st₂
      · have hunf : facetLoop oracle rs (fuel + 1) st = .error e := by
          simp only [facetLoop, if_pos hg, hs]
        refine ⟨?_, ?_, hbound⟩
        · rw [hunf]
          intro hc
          injection hc with hc
          exact facetStep_error_ne_fuel oracle rs st e hs hc
        · intro st' h'
          rw [hunf] at h'
          cases h'
      · have hunf : facetLoop oracle rs (fuel + 1) st =
            facetLoop oracle rs fuel st₂ := by
          simp only [facetLoop, if_pos hg, hs]
        obtain ⟨nf, hmem, v, L, total, hL, hrec⟩ :=
          facetStep_ok_spec oracle rs st st₂ hs
        have hsub₂ : ∀ e ∈ st₂.facets, e.facet ∈ F := by
          intro e he
          rw [hrec] at he
          simp only at he
          exact hF _ _ hL e (List.mem_filter.mp he).1
        have hdis₂ : ∀ e ∈ st₂.facets, e.facet ∉ st₂.applied := by
          intro e he
          rw [hrec] at he ⊢
          simp only at he ⊢
          have := (List.mem_filter.mp he).2
          simpa [List.elem_iff] using this
        have hlt : notApplied F st₂.applied < notApplied F st.applied := by
          rw [hrec]
          exact notApplied_append_lt F st.applied nf.facet
            (hsub nf hmem) (hdis nf hmem)
        have hm₂ : notApplied F st₂.applied ≤ fuel := by omega
        obtain ⟨hne₂, hreq₂, _⟩ := ih st₂ hsub₂ hdis₂ hm₂
        refine ⟨?_, ?_, hbound⟩
        · rw [hunf]
          exact hne₂
        · intro st' h'
          rw [hunf] at h'
          have := hreq₂ st' h'
          have hr₂ : st₂.reqs.length = st.reqs.length + 1 := by
            rw [hrec]
            simp
          omega
    · have hok : facetLoop oracle rs (fuel + 1) st = .ok st := by
        unfold facetLoop
        rw [if_neg hg]
      refine ⟨(by rw [hok]; intro hc; cases hc), ?_, hbound⟩
      intro st' h'
      rw [hok] at h'
      injection h' with h'
      subst h'
      omega

theorem claim_C9_witness :
    facetLoop wOracle (fun _ => 0) 1 wState0 ≠ .error .fuelErr
    ∧ ∀ st', facetLoop wOracle (fun _ => 0) 1 wState0 = .ok st' →
        st'.reqs.length ≤ wState0.reqs.length +
          notApplied ["format"] wState0.applied := by
  have hF : ∀ p L, get_facets (wOracle p) = .ok L →
      ∀ e ∈ L, e.facet ∈ ["format"] := by
    intro p L h e he
    unfold wOracle at h
    split at h
    · rw [show get_facets ⟨[⟨"book", ⟨45, [10, 20, 30]⟩, some ⟨[]⟩⟩]⟩ =
          .ok [] from rfl] at h
      injection h with h
      subst h
      simp at he
    · rw [show get_facets ⟨[⟨"book", ⟨150, []⟩,
          some ⟨[⟨"format", .cons (.mk "Book" .nil) .nil⟩]⟩⟩]⟩ =
          .ok [⟨"format", ["Book"]⟩] from rfl] at h
      injection h with h
      subst h
      simp at he
      simp [he]
  have h := claim_C9 wOracle (fun _ => 0) ["format"] hF 1 wState0
    (by intro e he; simp [wState0] at he; simp [he])
    (by intro e he; simp [wState0] at he; simp [he, wState0])
    (by decide)
  exact ⟨h.1, h.2.1⟩

end FacetsNB

namespace FacetsNB

/-- After any successful run of the narrowing loop the guard has failed:
the total no longer exceeds 100, or the catalog is exhausted. -/
theorem facetLoop_ok_not_guard (oracle : WParams → TroveResponse)
    (rs : Nat → Nat) : ∀ (fuel : Nat) (st st' : FState),
    facetLoop oracle rs fuel st = .ok st' → ¬ facetGuard st' := by
  intro fuel
  induction fuel with
  | zero =>
    intro st st' h
    unfold facetLoop at h
    split at h
    · cases h
    next hng =>
      injection h with h
      subst h
      exact hng
  | succ fuel ih =>
    intro st st' h
    unfold facetLoop at h
    split at h
    · split at h
      · cases h
      next st₂ hs => exact ih st₂ st' h
    next hng =>
      injection h with h
      subst h
      exact hng

/-- C1: the narrowing step repeats exactly while the total exceeds 100 and
the catalog is non-empty — under the guard the loop performs one more
iteration (propagating any exception of that iteration), without the
guard it stops immediately, and every state the loop returns fails the
guard.  After the loop, a strictly positive total triggers exactly one
further search whose params have window size `"100"` and the
facet-listing request removed, and the result is one record of the
returned page selected by the random index modulo the page length (every
page position being selectable); a zero total yields no result and no
further request. -/
theorem claim_C1 (oracle : WParams → TroveResponse) (rs : Nat → Nat)
    (fuel : Nat) (st st' : FState) :
    (facetLoop oracle rs fuel st = .ok st' → ¬ facetGuard st')
    ∧ (facetGuard st → ∀ e, facetStep oracle rs st = .error e →
        facetLoop oracle rs (fuel + 1) st = .error e)
    ∧ (facetGuard st → ∀ st₂, facetStep oracle rs st = .ok st₂ →
        facetLoop oracle rs (fuel + 1) st = facetLoop oracle rs fuel st₂)
    ∧ (¬ facetGuard st → facetLoop oracle rs fuel st = .ok st)
    ∧ (st.total = 0 → finalStep oracle rs st = .ok (none, st.reqs))
    ∧ (0 < st.total → ∀ z zs, (oracle (finalParams st)).zone = z :: zs →
        z.records.work ≠ [] →
        finalStep oracle rs st =
          .ok (some (choiceVal (rs st.cur) z.records.work),
               st.reqs ++ [finalParams st])
        ∧ choiceVal (rs st.cur) z.records.work ∈ z.records.work
        ∧ (finalParams st).n = "100" ∧ (finalParams st).facet = none
        ∧ ∀ i, i < z.records.work.length →
            choiceVal i z.records.work = z.records.work.getD i 0) := by
  refine ⟨facetLoop_ok_not_guard oracle rs fuel st st', ?_, ?_, ?_, ?_, ?_⟩
  · intro hg e hs
    simp only [facetLoop, if_pos hg, hs]
  · intro hg st₂ hs
    simp only [facetLoop, if_pos hg, hs]
  · intro hng
    cases fuel with
    | zero => simp only [facetLoop, if_neg hng]
    | succ n => simp only [facetLoop, if_neg hng]
  · intro h0
    have : ¬ 0 < st.total := by omega
    simp only [finalStep, if_neg this]
  · intro hpos z zs hz hwne
    obtain ⟨w0, ws, hw⟩ : ∃ w0 ws, z.records.work = w0 :: ws := by
      cases hww : z.records.work with
      | nil => exact absurd hww hwne
      | cons w0 ws => exact ⟨w0, ws, rfl⟩
    refine ⟨?_, choiceVal_mem _ hwne, rfl, rfl, ?_⟩
    · simp only [finalStep, if_pos hpos, hz, hw, pyChoice_cons_eq]
    · intro i hi
      exact choiceVal_surjective _ i hi

/-- The state in which the witness narrowing session leaves the loop:
total 45, catalog exhausted, two requests issued. -/
def wStateExit : FState :=
  { params := { zone := "book", n := "0", q := "cat", facet := some "all",
                includeLinks := true, lFacets := [("l-format", "Book")] },
    applied := ["format"], total := 45, facets := [], cur := 2,
    reqs := [{ zone := "book", n := "0", q := "cat", facet := some "all",
               includeLinks := true, lFacets := [] },
             { zone := "book", n := "0", q := "cat", facet := some "all",
               includeLinks := true, lFacets := [("l-format", "Book")] }] }

theorem claim_C1_witness :
    ¬ facetGuard wStateExit
    ∧ finalStep wOracle (fun _ => 0) wStateExit =
        .ok (some 10, wStateExit.reqs ++ [finalParams wStateExit]) := by
  have hloop : facetLoop wOracle (fun _ => 0) 1 wState0 = .ok wStateExit := rfl
  refine ⟨(claim_C1 wOracle (fun _ => 0) 1 wState0 wStateExit).1 hloop, ?_⟩
  have h := ((claim_C1 wOracle (fun _ => 0) 0 wStateExit wStateExit).2.2.2.2.2
      (by decide) ⟨"book", ⟨45, [10, 20, 30]⟩, some ⟨[]⟩⟩ [] rfl (by decide)).1
  exact h.trans (by rfl)

end FacetsNB

namespace FacetsNB

/-- `get_zones` returns exactly the names of the zones whose total is
strictly positive. -/
theorem get_zones_spec : ∀ zl : List Zone,
    get_zones zl =
      (zl.filter (fun z => 0 < z.records.total)).map (fun z => z.name) := by
  intro zl
  induction zl with
  | nil => rfl
  | cons z zs ih =>
    by_cases h : 0 < z.records.total
    · simp [get_zones, if_pos h, List.filter_cons, h, ih]
    · simp [get_zones, if_neg h, List.filter_cons, h, ih]

/-- The zone-probe loop issues at most `remaining` further requests, uses
the whole budget exactly when every attempt found no non-empty zone, and
on success returns the zone list computed from its last probe response. -/
theorem probeGo_spec (oracle : WParams → TroveResponse)
    (stopwords : List String) (rs : Nat → Nat) (query : Option String)
    (add_word add_number : Bool) :
    ∀ (r : Nat) (params : WParams) (cur : Nat) (trace : List WParams)
      (zones : List String) (p2 : WParams) (c2 : Nat) (tr2 : List WParams),
      probeGo oracle stopwords rs query add_word add_number r params cur
        trace = .ok (zones, p2, c2, tr2) →
      tr2.length ≤ trace.length + r
      ∧ (zones = [] → tr2.length = trace.length + r)
      ∧ (zones ≠ [] → ∃ preq tr', tr2 = tr' ++ [preq]
          ∧ zones = get_zones (oracle preq).zone) := by
  intro r
  induction r with
  | zero =>
    intro params cur trace zones p2 c2 tr2 h
    unfold probeGo at h
    injection h with h
    simp only [Prod.mk.injEq] at h
    obtain ⟨h1, _, _, h4⟩ := h
    subst h1
    subst h4
    exact ⟨by omega, fun _ => rfl, fun hne => absurd rfl hne⟩
  | succ r ih =>
    intro params cur trace zones p2 c2 tr2 h
    unfold probeGo at h
    split at h
    · cases h
    next params' cur' hsq =>
      dsimp only at h
      split at h
      next hz =>
        obtain ⟨ha, hb, hc⟩ :=
          ih params' cur' (trace ++ [params']) zones p2 c2 tr2 h
        refine ⟨?_, ?_, hc⟩
        · simp only [List.length_append, List.length_cons,
            List.length_nil] at ha
          omega
        · intro hzz
          have := hb hzz
          simp only [List.length_append, List.length_cons,
            List.length_nil] at this
          omega
      next hz =>
        injection h with h
        simp only [Prod.mk.injEq] at h
        obtain ⟨h1, h2, h3, h4⟩ := h
        subst h2
        subst h3
        subst h4
        refine ⟨by simp only [List.length_append, List.length_cons,
          List.length_nil]; omega, fun hzz => absurd (h1.trans hzz) hz, ?_⟩
        intro _
        exact ⟨params', trace, rfl, h1.symm⟩

/-- C3 (amended): the probe is re-issued up to **11** times in total
(`tries <= 10` with `tries` starting at 0); if every attempt finds no
non-empty zone the call yields no result — `.ok (none, …)`, not an
exception — after exactly 11 probe requests; and on success one zone is
selected by the random index modulo the number of zones with a strictly
positive total (each of them selectable), and the session is delegated to
`get_random_work_from_zone` for that zone. -/
theorem claim_C3_amended (oracle : WParams → TroveResponse)
    (stopwords : List String) (rs : Nat → Nat) (query : Option String)
    (add_word add_number : Bool) :
    (∀ zl : List Zone, get_zones zl =
        (zl.filter (fun z => 0 < z.records.total)).map (fun z => z.name))
    ∧ (∀ r params cur trace zones p2 c2 tr2,
        probeGo oracle stopwords rs query add_word add_number r params cur
          trace = .ok (zones, p2, c2, tr2) →
        tr2.length ≤ trace.length + r
        ∧ (zones = [] → tr2.length = trace.length + r)
        ∧ (zones ≠ [] → ∃ preq tr', tr2 = tr' ++ [preq]
            ∧ zones = get_zones (oracle preq).zone))
    ∧ (∀ fuel zone kwargs p1 c1 zones p2 c2 ptr,
        set_query stopwords rs 0 (initGWParams zone) query add_word false =
          .ok (p1, c1) →
        probeGo oracle stopwords rs query add_word add_number 11
          { p1 with lFacets := kwargs.map (fun kv => ("l-" ++ kv.1, kv.2)) }
          c1 [] = .ok (zones, p2, c2, ptr) →
        (zones = [] →
          get_random_work oracle stopwords rs fuel zone query add_word
            add_number kwargs = .ok (none, ptr, []) ∧ ptr.length = 11)
        ∧ ∀ z0 zr, zones = z0 :: zr →
            choiceVal (rs c2) zones ∈ zones
            ∧ (∀ i, i < zones.length → choiceVal i zones = zones.getD i "")
            ∧ ∀ res, get_random_work_from_zone oracle rs fuel (c2 + 1)
                  (choiceVal (rs c2) zones) p2.q kwargs = .ok res →
                get_random_work oracle stopwords rs fuel zone query add_word
                  add_number kwargs = .ok (res.1, ptr, res.2)) := by
  refine ⟨get_zones_spec, probeGo_spec oracle stopwords rs query add_word
    add_number, ?_⟩
  intro fuel zone kwargs p1 c1 zones p2 c2 ptr hset hprobe
  constructor
  · intro hz
    subst hz
    constructor
    · unfold get_random_work
      simp only [hset]
      try dsimp only
      simp only [hprobe]
    · have h := (probeGo_spec oracle stopwords rs query add_word add_number
        11 _ c1 [] [] p2 c2 ptr hprobe).2.1 rfl
      simpa using h
  · intro z0 zr hz
    subst hz
    refine ⟨choiceVal_mem _ (by simp),
      fun i hi => choiceVal_surjective _ i hi, ?_⟩
    intro res hres
    obtain ⟨w, ztr⟩ := res
    unfold get_random_work
    simp only [hset]
    try dsimp only
    simp only [hprobe]
    try dsimp only
    simp only [hres]

/-- Oracle for the C3 runs: every zone always reports zero results. -/
def c3oracle : WParams → TroveResponse := fun _ => ⟨[⟨"book", ⟨0, []⟩, none⟩]⟩

/-- C3 counterexample: with stopword `"the"` and an oracle whose zones are
always empty, the multi-zone entry point returns no result — but only
after issuing 11 probe requests, one more than the claimed budget of
10 attempts. -/
theorem claim_C3_counterexample :
    (get_random_work c3oracle ["the"] (fun _ => 0) 1 none none false false
        []).toOption.map (fun r => (r.1, r.2.1.length, r.2.2)) =
      some (none, 11, [])
    ∧ ¬ (11 : Nat) ≤ 10 := by
  exact ⟨rfl, by omega⟩

/-- The probe request every C3-witness attempt issues. -/
def c3wp : WParams :=
  { zone := "book,article,picture,map,music,collection", n := "0",
    q := "\"the\"", facet := none, includeLinks := false, lFacets := [] }

theorem claim_C3_witness :
    get_random_work c3oracle ["the"] (fun _ => 0) 1 none none false false [] =
      .ok (none, List.replicate 11 c3wp, [])
    ∧ (List.replicate 11 c3wp).length = 11 := by
  have h := ((claim_C3_amended c3oracle ["the"] (fun _ => 0) none false
      false).2.2 1 none [] c3wp 2 [] c3wp 24 (List.replicate 11 c3wp)
      rfl rfl).1 rfl
  exact h

end FacetsNB
